import Mathlib

/-!
# tragediy: paper tiling and command-line handling of `src/tragediy.cpp`

A shallow embedding of the paper-tiling layout and of the command-line
handling of `tragediy.cpp`, with the properties of the page grid proved
about it.

Conventions of the embedding

* `double` values are exact rationals (`ℚ`): rounding and the range of a
  `double` are not modelled.  A quotient whose divisor is zero is not a
  number here (in C++ it is an infinity or a NaN).  Where rounding decides
  what the program does, the lines concerned are evaluated a second time in
  binary64 arithmetic (section "Binary64 evaluation"; the definitions there
  end in `64`).
* `std::size_t` values are natural numbers (`ℕ`): the width of the type is
  not modelled, as the range of a `double` is not.  The conversion
  `(std::size_t)` of a `double` keeps every value that is a natural number.
  A negative value has no conversion in C++ (the behaviour is undefined; an
  x86-64 build yields `2^64 + z` for a small negative `z`): the model assigns
  it no count, `none`.
* The global variables of the program are the fields of `Globals`, passed
  explicitly; their initial values are the initialisers of the source.
* Code outside `tragediy.cpp` (command-line parsing, the file system, track
  construction and import, the writers) enters as data: the parsed options
  `VariablesMap`, and the collaborators of `Env`.
-/

namespace Tragediy

/-! ## Data model -/

/-- Axis-aligned box, the four public fields of `BoundingBox` that
`tragediy.cpp` reads and writes. -/
structure BoundingBox where
  xMin_ : ℚ
  xMax_ : ℚ
  yMin_ : ℚ
  yMax_ : ℚ
deriving DecidableEq, Repr

/-- The global variables of `tragediy.cpp` (lines 43-51) with their
initialisers. -/
structure Globals where
  trackName_ : String := ""
  pathToAppData_ : String := ""
  mapFileDrive_ : String := ""
  mapFileOverdrive_ : String := ""
  prefix_ : String := ""
  tileSize_ : String := "full"
  isOverrideThetaWithZero_ : Bool := false
  rotation_ : ℚ := 0
  marginNotPrintable_ : ℚ := 5
  marginOverlap_ : ℚ := 5
deriving DecidableEq, Repr

/-- The state of the globals when `main` starts. -/
def initialGlobals : Globals := {}

/-! ## Paper size -/

/-- The branch of the `if`/`else if` chain of `setPaperSize` that is
taken. -/
inductive PaperBranch where
  | a3Landscape
  | a4Landscape
  | a3Portrait
  | a4Portrait
  | letterLandscape
  | letterPortrait
  | legalLandscape
  | legalPortrait
  | fallback
deriving DecidableEq, Repr

/-- The chain of string comparisons on `tileSize_` in `setPaperSize`
(lines 138-182), in source order. -/
def setPaperSizeBranch (tileSize_ : String) : PaperBranch :=
  if tileSize_ = "a3-landscape" then .a3Landscape
  else if tileSize_ = "a4-landscape" then .a4Landscape
  else if tileSize_ = "a3-portrait" then .a3Portrait
  else if tileSize_ = "a4-portrait" then .a4Portrait
  else if tileSize_ = "letter-landscape" then .letterLandscape
  else if tileSize_ = "letter-portrait" then .letterPortrait
  else if tileSize_ = "legal-landscape" then .legalLandscape
  else if tileSize_ = "legal-portrait" then .legalPortrait
  else .fallback

/-- The function `setPaperSize` (lines 134-185): the pair
`(paperWidth, paperHeight)` assigned in the branch taken. -/
def setPaperSize (g : Globals) (bbTrack : BoundingBox) : ℚ × ℚ :=
  match setPaperSizeBranch g.tileSize_ with
  | .a3Landscape => (420.0, 297.0)
  | .a4Landscape => (297.0, 210.0)
  | .a3Portrait => (297.0, 420.0)
  | .a4Portrait => (210.0, 297.0)
  | .letterLandscape => (279.4, 215.9)
  | .letterPortrait => (215.9, 279.4)
  | .legalLandscape => (355.6, 215.9)
  | .legalPortrait => (215.9, 355.6)
  | .fallback => (bbTrack.xMax_ - bbTrack.xMin_, bbTrack.yMax_ - bbTrack.yMin_)

/-! ## Page count -/

/-- The conversion `(std::size_t)` applied to an integral `double`: a value
that is a natural number is kept (also from `2^64` on, the width of
`std::size_t` is not modelled); a negative value, whose conversion C++
leaves undefined, gets no count. -/
def toSizeT (z : ℤ) : Option ℕ :=
  if 0 ≤ z then some z.toNat else none

/-- The local `wholeMargin` of `main` (line 405), which is also the local
`tmp` of `createTiledTrackSVG` (line 261). -/
def wholeMargin (g : Globals) : ℚ :=
  2.0 * g.marginNotPrintable_ + g.marginOverlap_

/-- The value of `std::ceil(...)` in lines 406-407, before its conversion
to `std::size_t`:
`std::ceil((trackExtent - wholeMargin) / (paperDim - wholeMargin))`, in exact
arithmetic. -/
def numPapersCeil (g : Globals) (trackExtent paperDim : ℚ) : ℤ :=
  ⌈(trackExtent - wholeMargin g) / (paperDim - wholeMargin g)⌉

/-- The page count of one axis as `main` computes it (lines 406-407), in
exact arithmetic:
`(std::size_t)(std::ceil((trackExtent - wholeMargin) / (paperDim - wholeMargin)))`. -/
def numPapers (g : Globals) (trackExtent paperDim : ℚ) : Option ℕ :=
  if paperDim - wholeMargin g = 0 then none
  else toSizeT (numPapersCeil g trackExtent paperDim)

/-! ## Tiled pages -/

/-- An SVG `<line>` element of a tiled page: the end points of its centre
line and its `stroke-width`. -/
structure Line where
  x1 : ℚ
  y1 : ℚ
  x2 : ℚ
  y2 : ℚ
  strokeWidth : ℚ
deriving DecidableEq, Repr

/-- The local `widthHelperThick` of `createTiledTrackSVG` (line 275). -/
def widthHelperThick : ℚ := 2.0

/-- The local `widthHelperThin` of `createTiledTrackSVG` (line 285). -/
def widthHelperThin : ℚ := 0.1

/-- The viewport `bbPaper` of page `(iX, iY)` (lines 260-265). -/
def bbPaper (g : Globals) (bbTrack : BoundingBox) (paperWidth paperHeight : ℚ)
    (iX iY : ℕ) : BoundingBox :=
  let tmp := 2.0 * g.marginNotPrintable_ + g.marginOverlap_
  let xMin := bbTrack.xMin_ + (paperWidth - tmp) * (iX : ℚ)
  let yMin := bbTrack.yMin_ + (paperHeight - tmp) * (iY : ℚ)
  { xMin_ := xMin, yMin_ := yMin, xMax_ := xMin + paperWidth, yMax_ := yMin + paperHeight }

/-- The eight thick corner marks of a page (lines 276-283), in source
order. -/
def thickMarks (g : Globals) (bb : BoundingBox) : List Line :=
  let np := g.marginNotPrintable_
  let ov := g.marginOverlap_
  let w := widthHelperThick
  [ ⟨bb.xMin_ + 0.0, bb.yMin_ + np - 0.5 * w, bb.xMin_ + np, bb.yMin_ + np - 0.5 * w, w⟩,
    ⟨bb.xMax_ - np, bb.yMin_ + np - 0.5 * w, bb.xMax_, bb.yMin_ + np - 0.5 * w, w⟩,
    ⟨bb.xMin_ + np - 0.5 * w, bb.yMin_ + 0.0, bb.xMin_ + np - 0.5 * w, bb.yMin_ + np, w⟩,
    ⟨bb.xMin_ + np - 0.5 * w, bb.yMax_ - np, bb.xMin_ + np - 0.5 * w, bb.yMax_, w⟩,
    ⟨bb.xMin_ + 0.0, bb.yMax_ - np - ov + 0.5 * w, bb.xMin_ + np, bb.yMax_ - np - ov + 0.5 * w, w⟩,
    ⟨bb.xMax_ - np, bb.yMax_ - np - ov + 0.5 * w, bb.xMax_, bb.yMax_ - np - ov + 0.5 * w, w⟩,
    ⟨bb.xMax_ - np - ov + 0.5 * w, bb.yMin_ + 0.0, bb.xMax_ - np - ov + 0.5 * w, bb.yMin_ + np, w⟩,
    ⟨bb.xMax_ - np - ov + 0.5 * w, bb.yMax_ - np, bb.xMax_ - np - ov + 0.5 * w, bb.yMax_, w⟩ ]

/-- The dashed guide line along the min side in y (line 286). -/
def guideLineYMin (g : Globals) (bb : BoundingBox) : Line :=
  ⟨bb.xMin_, bb.yMin_ + g.marginNotPrintable_ - 0.5 * widthHelperThin,
   bb.xMax_, bb.yMin_ + g.marginNotPrintable_ - 0.5 * widthHelperThin, widthHelperThin⟩

/-- The dashed guide line along the min side in x (line 287). -/
def guideLineXMin (g : Globals) (bb : BoundingBox) : Line :=
  ⟨bb.xMin_ + g.marginNotPrintable_ - 0.5 * widthHelperThin, bb.yMin_,
   bb.xMin_ + g.marginNotPrintable_ - 0.5 * widthHelperThin, bb.yMax_, widthHelperThin⟩

/-- The dashed guide line along the max side in y (line 288). -/
def guideLineYMax (g : Globals) (bb : BoundingBox) : Line :=
  ⟨bb.xMin_, bb.yMax_ - g.marginNotPrintable_ - g.marginOverlap_ + 0.5 * widthHelperThin,
   bb.xMax_, bb.yMax_ - g.marginNotPrintable_ - g.marginOverlap_ + 0.5 * widthHelperThin,
   widthHelperThin⟩

/-- The dashed guide line along the max side in x (line 289). -/
def guideLineXMax (g : Globals) (bb : BoundingBox) : Line :=
  ⟨bb.xMax_ - g.marginNotPrintable_ - g.marginOverlap_ + 0.5 * widthHelperThin, bb.yMin_,
   bb.xMax_ - g.marginNotPrintable_ - g.marginOverlap_ + 0.5 * widthHelperThin, bb.yMax_,
   widthHelperThin⟩

/-- The edge of a vertical stroke that has the smaller x coordinate. -/
def Line.xLow (l : Line) : ℚ := l.x1 - 0.5 * l.strokeWidth

/-- The edge of a vertical stroke that has the larger x coordinate. -/
def Line.xHigh (l : Line) : ℚ := l.x1 + 0.5 * l.strokeWidth

/-- The edge of a horizontal stroke that has the smaller y coordinate. -/
def Line.yLow (l : Line) : ℚ := l.y1 - 0.5 * l.strokeWidth

/-- The edge of a horizontal stroke that has the larger y coordinate. -/
def Line.yHigh (l : Line) : ℚ := l.y1 + 0.5 * l.strokeWidth

/-- One file written by `createTiledTrackSVG`: its name, the page index,
the `viewBox` and size of the `<svg>` element, the helper lines and the
position and font size of the page label (line 292). -/
structure Page where
  file : String
  iX : ℕ
  iY : ℕ
  bbPaper : BoundingBox
  paperWidth : ℚ
  paperHeight : ℚ
  thick : List Line
  thin : List Line
  labelX : ℚ
  labelY : ℚ
  labelSize : ℚ
deriving DecidableEq, Repr

/-- The body of the inner loop of `createTiledTrackSVG` (lines 257-294) for
page `(iX, iY)`. -/
def tiledPage (g : Globals) (bbTrack : BoundingBox) (paperWidth paperHeight : ℚ)
    (iX iY : ℕ) : Page :=
  let bb := bbPaper g bbTrack paperWidth paperHeight iX iY
  let scale : ℚ := 0.75
  { file := g.prefix_ ++ "_track_" ++ toString iX ++ "x" ++ toString iY ++ ".svg"
    iX := iX
    iY := iY
    bbPaper := bb
    paperWidth := paperWidth
    paperHeight := paperHeight
    thick := thickMarks g bb
    thin := [guideLineYMin g bb, guideLineXMin g bb, guideLineYMax g bb, guideLineXMax g bb]
    labelX := bb.xMin_ + g.marginNotPrintable_ + g.marginOverlap_
                + 0.5 * (1 - scale) * g.marginOverlap_
    labelY := bb.yMax_ - g.marginNotPrintable_ - 0.5 * (1 - scale) * g.marginOverlap_
    labelSize := scale * g.marginOverlap_ }

/-- The function `createTiledTrackSVG` (lines 251-297): the pages written,
in the order of the two nested loops (`iX` outer, `iY` inner). -/
def createTiledTrackSVG (g : Globals) (bbTrack : BoundingBox) (numPapersX numPapersY : ℕ)
    (paperWidth paperHeight : ℚ) : List Page :=
  ((List.range numPapersX).map fun iX =>
    (List.range numPapersY).map fun iY =>
      tiledPage g bbTrack paperWidth paperHeight iX iY).flatten

/-! ## Layout computed in `main` -/

/-- The padding of the track box in `main` (lines 395-399). -/
def padTrack (g : Globals) (bbTrack : BoundingBox) : BoundingBox :=
  let margin := g.marginNotPrintable_ + g.marginOverlap_ + 22.5
  { xMin_ := bbTrack.xMin_ - margin, xMax_ := bbTrack.xMax_ + margin,
    yMin_ := bbTrack.yMin_ - margin, yMax_ := bbTrack.yMax_ + margin }

/-- The values that `main` has computed when it reaches line 416. -/
structure Layout where
  bbTrack : BoundingBox
  paperWidth : ℚ
  paperHeight : ℚ
  numPapersX : ℕ
  numPapersY : ℕ
  bbPrint : BoundingBox
deriving DecidableEq, Repr

/-- The viewport `bbPrint` of the combined drawing (lines 410-414). -/
def bbPrint (g : Globals) (bbTrack : BoundingBox) (paperWidth paperHeight : ℚ)
    (numPapersX numPapersY : ℕ) : BoundingBox :=
  { xMin_ := bbTrack.xMin_ + g.marginNotPrintable_
    yMin_ := bbTrack.yMin_ + g.marginNotPrintable_
    xMax_ := bbTrack.xMin_ + (numPapersX : ℚ) * (paperWidth - wholeMargin g)
    yMax_ := bbTrack.yMin_ + (numPapersY : ℚ) * (paperHeight - wholeMargin g) }

/-- Lines 395-414 of `main`, from the box that `adaptCanvas` returned:
padding, paper size, page counts and `bbPrint`.  The result is `none` when
a page count is not defined. -/
def mainLayout (g : Globals) (canvas : BoundingBox) : Option Layout :=
  let bbTrack := padTrack g canvas
  let paper := setPaperSize g bbTrack
  match numPapers g (bbTrack.xMax_ - bbTrack.xMin_) paper.1,
        numPapers g (bbTrack.yMax_ - bbTrack.yMin_) paper.2 with
  | some numPapersX, some numPapersY =>
      some { bbTrack := bbTrack, paperWidth := paper.1, paperHeight := paper.2,
             numPapersX := numPapersX, numPapersY := numPapersY,
             bbPrint := bbPrint g bbTrack paper.1 paper.2 numPapersX numPapersY }
  | _, _ => none

/-- A file written by `main`, with the viewport handed to its writer. -/
inductive Output where
  | cleanSVG (file : String) (bbPrint : BoundingBox)
  | annotatedSVG (file : String) (bbPrint : BoundingBox)
  | trackJSON (file : String) (bbPrint : BoundingBox)
  | locationTableCSV (file : String)
  | locationTableJSON (file : String) (bbPrint : BoundingBox)
  | tiled (page : Page)
deriving DecidableEq, Repr

/-- Lines 416-427 of `main`: the five combined outputs, then the tiled
pages when more than one page is needed. -/
def mainOutputs (g : Globals) (l : Layout) : List Output :=
  [ .cleanSVG (g.prefix_ ++ "_track_clean.svg") l.bbPrint,
    .annotatedSVG (g.prefix_ ++ "_track_annotated.svg") l.bbPrint,
    .trackJSON (g.prefix_ ++ "_track.json") l.bbPrint,
    .locationTableCSV (g.prefix_ ++ "_location-table.csv"),
    .locationTableJSON (g.prefix_ ++ "_location-table.json") l.bbPrint ]
  ++ (if l.numPapersX > 1 ∨ l.numPapersY > 1 then
        (createTiledTrackSVG g l.bbTrack l.numPapersX l.numPapersY
          l.paperWidth l.paperHeight).map Output.tiled
      else [])

/-! ## Command line -/

/-- The options stored in the `po::variables_map` by the parser set up in
lines 56-75: for each option whether it occurs (`vm.count`) and its value
(`vm[...].as<...>()`). -/
structure VariablesMap where
  optHelp : Bool := false
  optPrefix : Option String := none
  optSize : Option String := none
  optTrack : Option String := none
  optAppdata : Option String := none
  optImportDrive : Option String := none
  optImportOverdrive : Option String := none
  optRotate : Option ℚ := none
  optZero : Bool := false
deriving DecidableEq, Repr

/-- The collaborators of `tragediy.cpp` whose code lies outside it.  The
track itself stays abstract: a construction or import routine is
represented by the box that `track.adaptCanvas()` returns for the track it
built, and an import that throws by `none`. -/
structure Env where
  /-- The test `boost::filesystem::is_directory`. -/
  isDirectory : String → Bool
  /-- The function `getBasename`, that is `fs::path::stem`. -/
  getBasename : String → String
  /-- The canvas of the track built by `constructStarterTrack`. -/
  starterCanvas : BoundingBox
  /-- The canvas of the track built by
  `constructRingTrack(track, borders, 150.0, 220.0, 10, false)`. -/
  ringCanvas : BoundingBox
  /-- The canvas after `AnkiDriveMap::loadRacingMap`, the optional
  `resetTheta` and `convert`, from the app data path, the map file, the
  flag `isOverrideThetaWithZero_` and the rotation in degrees. -/
  driveCanvas : String → String → Bool → ℚ → Option BoundingBox
  /-- The canvas after `AnkiOverdriveMap::loadRacingMap` and `convert`. -/
  overdriveCanvas : String → String → ℚ → Option BoundingBox

/-- Lines 92-102 of `handleCommandlineArguments`: the source of the track
is taken from the first of `--track`, `--import-drive` and
`--import-overdrive` that occurs; `none` when none of them occurs and the
process ends with `std::exit(EXIT_FAILURE)`. -/
def selectSource (vm : VariablesMap) (g : Globals) : Option Globals :=
  match vm.optTrack with
  | some t => some { g with trackName_ := t }
  | none =>
    match vm.optImportDrive with
    | some f => some { g with mapFileDrive_ := f }
    | none =>
      match vm.optImportOverdrive with
      | some f => some { g with mapFileOverdrive_ := f }
      | none => none

/-- Lines 112-115 of `handleCommandlineArguments`: the app data path, `.`
by default. -/
def setAppData (vm : VariablesMap) (g : Globals) : Globals :=
  match vm.optAppdata with
  | some p => { g with pathToAppData_ := p }
  | none => { g with pathToAppData_ := "." }

/-- Lines 124-129 of `handleCommandlineArguments`: `--rotate` and
`--zero`. -/
def setRotation (vm : VariablesMap) (g : Globals) : Globals :=
  let g1 : Globals :=
    match vm.optRotate with
    | some r => { g with rotation_ := r }
    | none => g
  if vm.optZero then { g1 with isOverrideThetaWithZero_ := true } else g1

/-- The function `handleCommandlineArguments` (lines 53-132).  The argument
`parsed` is the outcome of `po::store` on the command line: the variables
map, or the `po::error` thrown.  The result is the state of the globals
when the function ends, and the variables map it returns, or `none` when it
ends the process with `std::exit(EXIT_FAILURE)`. -/
def handleCommandlineArguments (env : Env) (parsed : Except String VariablesMap)
    (g : Globals) : Globals × Option VariablesMap :=
  match parsed with
  | .error _ => (g, none)
  | .ok vm =>
    if vm.optHelp then (g, none)
    else
      match selectSource vm g with
      | none => (g, none)
      | some g1 =>
        if vm.optImportDrive.isSome && vm.optImportOverdrive.isSome then (g1, none)
        else if vm.optImportDrive.isSome || vm.optImportOverdrive.isSome then
          if !env.isDirectory (setAppData vm g1).pathToAppData_ then (setAppData vm g1, none)
          else (setRotation vm (setAppData vm g1), some vm)
        else (setRotation vm g1, some vm)

/-- Lines 343-387 of `main`: which routine builds the track.  The first
component tells whether a construction or import routine was called, the
second is the canvas of the track built, `none` when the process ends with
`std::exit(EXIT_FAILURE)`. -/
def mainTrack (env : Env) (g : Globals) : Bool × Option BoundingBox :=
  if g.trackName_ = "starter" then (true, some env.starterCanvas)
  else if g.trackName_ = "ring" then (true, some env.ringCanvas)
  else if g.trackName_ = "" ∧ g.mapFileDrive_ ≠ "" then
    (true, env.driveCanvas g.pathToAppData_ g.mapFileDrive_ g.isOverrideThetaWithZero_
      g.rotation_)
  else if g.trackName_ = "" ∧ g.mapFileOverdrive_ ≠ "" then
    (true, env.overdriveCanvas g.pathToAppData_ g.mapFileOverdrive_ g.rotation_)
  else (false, none)

/-- Rounding of a rational number to the nearest integer, ties to the even
one. -/
def roundHalfEven (m : ℚ) : ℤ :=
  if m - ⌊m⌋ < 1 / 2 then ⌊m⌋
  else if 1 / 2 < m - ⌊m⌋ then ⌊m⌋ + 1
  else if ⌊m⌋ % 2 = 0 then ⌊m⌋ else ⌊m⌋ + 1

/-- Rounding of a rational number to the nearest binary64 value, ties to
even, for values in the normal range (overflow and subnormal numbers are not
modelled): with `2^e ≤ |x| < 2^(e+1)` the result is the multiple of
`2^(e-52)` nearest to `x`, and of two nearest multiples the even one. -/
def roundBinary64 (x : ℚ) : ℚ :=
  if x = 0 then 0
  else (roundHalfEven (x / 2 ^ (Int.log 2 |x| - 52)) : ℚ) * 2 ^ (Int.log 2 |x| - 52)

/-- The local `wholeMargin` of `main` (line 405) and `tmp` of
`createTiledTrackSVG` (line 261) in binary64: a product, then a sum. -/
def wholeMargin64 (g : Globals) : ℚ :=
  roundBinary64 (roundBinary64 (2.0 * g.marginNotPrintable_) + g.marginOverlap_)

/-- The value of `std::ceil(...)` in line 406 (and 407) in binary64, from
the extent `bbTrack.xMax_ - bbTrack.xMin_` as a binary64 value and the paper
dimension: the two differences and the quotient are each rounded; the
ceiling of a binary64 value is exact. -/
def numPapersCeil64 (g : Globals) (trackExtent paperDim : ℚ) : ℤ :=
  ⌈roundBinary64
    (roundBinary64 (trackExtent - wholeMargin64 g)
      / roundBinary64 (paperDim - wholeMargin64 g))⌉

/-- An environment for concrete runs: the current directory `.` is the only
directory, `getBasename` keeps the name, the starter track has the canvas
`[0, 400] × [0, 100]`, the ring track the canvas `[-220, 220] × [-220, 220]`,
and every import fails. -/
def sampleEnv : Env where
  isDirectory := fun p => p == "."
  getBasename := fun p => p
  starterCanvas := ⟨0, 400, 0, 100⟩
  ringCanvas := ⟨-220, 220, -220, 220⟩
  driveCanvas := fun _ _ _ _ => none
  overdriveCanvas := fun _ _ _ => none

/-! ## Auxiliary facts -/

theorem toSizeT_of_nonneg {z : ℤ} (h : 0 ≤ z) : toSizeT z = some z.toNat := by
  simp [toSizeT, h]

theorem toSizeT_of_neg {z : ℤ} (h : z < 0) : toSizeT z = none := by
  simp [toSizeT, not_le.mpr h]

theorem numPapers_eq_toSizeT (g : Globals) (E P : ℚ) (hP : wholeMargin g < P) :
    numPapers g E P = toSizeT ⌈(E - wholeMargin g) / (P - wholeMargin g)⌉ := by
  have hd : P - wholeMargin g ≠ 0 := (sub_pos.mpr hP).ne'
  simp [numPapers, numPapersCeil, hd]

/-- The ceiling in `numPapers` is not negative as soon as the extent exceeds
`2 * wholeMargin - paperDim`. -/
theorem ceil_nonneg_of_extent (g : Globals) (E P : ℚ) (hP : wholeMargin g < P)
    (hE : 2 * wholeMargin g - P < E) :
    0 ≤ ⌈(E - wholeMargin g) / (P - wholeMargin g)⌉ := by
  have hd : 0 < P - wholeMargin g := sub_pos.mpr hP
  have hq : ((-1 : ℤ) : ℚ) < (E - wholeMargin g) / (P - wholeMargin g) := by
    rw [lt_div_iff₀ hd]
    push_cast
    linarith
  have := Int.lt_ceil.mpr hq
  omega

/-- The page count is the natural number `n` with
`(n - 1) * (P - wholeMargin) < E - wholeMargin ≤ n * (P - wholeMargin)`. -/
theorem numPapers_bounds (g : Globals) (E P : ℚ) (hP : wholeMargin g < P)
    (hE : 2 * wholeMargin g - P < E) :
    ∃ n : ℕ, numPapers g E P = some n ∧
      E - wholeMargin g ≤ (n : ℚ) * (P - wholeMargin g) ∧
      ((n : ℚ) - 1) * (P - wholeMargin g) < E - wholeMargin g := by
  have hd : 0 < P - wholeMargin g := sub_pos.mpr hP
  have h0 := ceil_nonneg_of_extent g E P hP hE
  refine ⟨⌈(E - wholeMargin g) / (P - wholeMargin g)⌉.toNat, ?_, ?_, ?_⟩
  · rw [numPapers_eq_toSizeT g E P hP, toSizeT_of_nonneg h0]
  · have hc : ((⌈(E - wholeMargin g) / (P - wholeMargin g)⌉.toNat : ℕ) : ℚ)
        = ((⌈(E - wholeMargin g) / (P - wholeMargin g)⌉ : ℤ) : ℚ) := by
      exact_mod_cast congrArg (Int.cast : ℤ → ℚ) (Int.toNat_of_nonneg h0)
    rw [hc]
    have := Int.le_ceil ((E - wholeMargin g) / (P - wholeMargin g))
    exact (div_le_iff₀ hd).mp this
  · have hc : ((⌈(E - wholeMargin g) / (P - wholeMargin g)⌉.toNat : ℕ) : ℚ)
        = ((⌈(E - wholeMargin g) / (P - wholeMargin g)⌉ : ℤ) : ℚ) := by
      exact_mod_cast congrArg (Int.cast : ℤ → ℚ) (Int.toNat_of_nonneg h0)
    rw [hc]
    have := Int.ceil_lt_add_one ((E - wholeMargin g) / (P - wholeMargin g))
    have h2 : ((⌈(E - wholeMargin g) / (P - wholeMargin g)⌉ : ℤ) : ℚ) - 1
        < (E - wholeMargin g) / (P - wholeMargin g) := by linarith
    exact (lt_div_iff₀ hd).mp h2

/-- A natural number squeezed as in `numPapers_bounds` between equal bounds
is one. -/
theorem eq_one_of_squeeze (n : ℕ) (d : ℚ) (hd : 0 < d) (h1 : d ≤ (n : ℚ) * d)
    (h2 : ((n : ℚ) - 1) * d < d) : n = 1 := by
  have a1 : (1 : ℚ) ≤ n := by
    by_contra hlt
    push_neg at hlt
    nlinarith
  have a2 : (n : ℚ) < 2 := by
    by_contra hge
    push_neg at hge
    nlinarith
  have b1 : 1 ≤ n := by exact_mod_cast a1
  have b2 : n < 2 := by exact_mod_cast a2
  omega

theorem wholeMargin_default (g : Globals) (h1 : g.marginNotPrintable_ = 5)
    (h2 : g.marginOverlap_ = 5) : wholeMargin g = 15 := by
  simp only [wholeMargin, h1, h2]
  norm_num

theorem setPaperSizeBranch_a3Landscape :
    setPaperSizeBranch "a3-landscape" = PaperBranch.a3Landscape := by decide

theorem setPaperSizeBranch_a4Landscape :
    setPaperSizeBranch "a4-landscape" = PaperBranch.a4Landscape := by decide

theorem setPaperSizeBranch_a3Portrait :
    setPaperSizeBranch "a3-portrait" = PaperBranch.a3Portrait := by decide

theorem setPaperSizeBranch_a4Portrait :
    setPaperSizeBranch "a4-portrait" = PaperBranch.a4Portrait := by decide

theorem setPaperSizeBranch_letterLandscape :
    setPaperSizeBranch "letter-landscape" = PaperBranch.letterLandscape := by decide

theorem setPaperSizeBranch_letterPortrait :
    setPaperSizeBranch "letter-portrait" = PaperBranch.letterPortrait := by decide

theorem setPaperSizeBranch_legalLandscape :
    setPaperSizeBranch "legal-landscape" = PaperBranch.legalLandscape := by decide

theorem setPaperSizeBranch_legalPortrait :
    setPaperSizeBranch "legal-portrait" = PaperBranch.legalPortrait := by decide

theorem setPaperSizeBranch_full :
    setPaperSizeBranch "full" = PaperBranch.fallback := by decide

/-! ## Page count: `full`, monotonicity, coverage -/

/-- C2: with `tileSize_ = "full"` and the margins 5 and 5, for every track
box with `xMin ≤ xMax` and `yMin ≤ yMax`, `main` pads the box by 32.5 on each
side, `setPaperSize` returns the extent of the padded box, both page counts
are defined and equal to 1, the guard of `createTiledTrackSVG` is false and
no tiled page is written. -/
theorem full_size_single_page (g : Globals) (canvas : BoundingBox)
    (hsize : g.tileSize_ = "full")
    (hnp : g.marginNotPrintable_ = 5) (hov : g.marginOverlap_ = 5)
    (hx : canvas.xMin_ ≤ canvas.xMax_) (hy : canvas.yMin_ ≤ canvas.yMax_) :
    padTrack g canvas
        = ⟨canvas.xMin_ - 32.5, canvas.xMax_ + 32.5, canvas.yMin_ - 32.5, canvas.yMax_ + 32.5⟩
      ∧ setPaperSize g (padTrack g canvas)
        = ((padTrack g canvas).xMax_ - (padTrack g canvas).xMin_,
           (padTrack g canvas).yMax_ - (padTrack g canvas).yMin_)
      ∧ ∃ l : Layout, mainLayout g canvas = some l
          ∧ l.bbTrack = padTrack g canvas
          ∧ (l.paperWidth, l.paperHeight) = setPaperSize g (padTrack g canvas)
          ∧ l.numPapersX = 1 ∧ l.numPapersY = 1
          ∧ ¬ (l.numPapersX > 1 ∨ l.numPapersY > 1)
          ∧ ∀ o ∈ mainOutputs g l, ∀ p : Page, o ≠ Output.tiled p := by
  have hwm : wholeMargin g = 15 := wholeMargin_default g hnp hov
  have hpad : padTrack g canvas
      = ⟨canvas.xMin_ - 32.5, canvas.xMax_ + 32.5, canvas.yMin_ - 32.5, canvas.yMax_ + 32.5⟩ := by
    simp only [padTrack, hnp, hov]
    norm_num
  have hpaper : setPaperSize g (padTrack g canvas)
      = ((padTrack g canvas).xMax_ - (padTrack g canvas).xMin_,
         (padTrack g canvas).yMax_ - (padTrack g canvas).yMin_) := by
    simp [setPaperSize, setPaperSizeBranch, hsize]
  have hEx : wholeMargin g < (padTrack g canvas).xMax_ - (padTrack g canvas).xMin_ := by
    rw [hwm, hpad]
    norm_num
    linarith
  have hEy : wholeMargin g < (padTrack g canvas).yMax_ - (padTrack g canvas).yMin_ := by
    rw [hwm, hpad]
    norm_num
    linarith
  obtain ⟨nx, hnx, hx1, hx2⟩ := numPapers_bounds g
    ((padTrack g canvas).xMax_ - (padTrack g canvas).xMin_)
    ((padTrack g canvas).xMax_ - (padTrack g canvas).xMin_) hEx (by linarith)
  obtain ⟨ny, hny, hy1, hy2⟩ := numPapers_bounds g
    ((padTrack g canvas).yMax_ - (padTrack g canvas).yMin_)
    ((padTrack g canvas).yMax_ - (padTrack g canvas).yMin_) hEy (by linarith)
  have ex : nx = 1 := eq_one_of_squeeze nx _ (sub_pos.mpr hEx) hx1 hx2
  have ey : ny = 1 := eq_one_of_squeeze ny _ (sub_pos.mpr hEy) hy1 hy2
  subst ex
  subst ey
  refine ⟨hpad, hpaper, ?_⟩
  refine ⟨{ bbTrack := padTrack g canvas,
            paperWidth := (padTrack g canvas).xMax_ - (padTrack g canvas).xMin_,
            paperHeight := (padTrack g canvas).yMax_ - (padTrack g canvas).yMin_,
            numPapersX := 1, numPapersY := 1,
            bbPrint := bbPrint g (padTrack g canvas)
              ((padTrack g canvas).xMax_ - (padTrack g canvas).xMin_)
              ((padTrack g canvas).yMax_ - (padTrack g canvas).yMin_) 1 1 }, ?_, rfl, ?_, rfl, rfl,
          ?_, ?_⟩
  · simp only [mainLayout, hpaper, hnx, hny]
  · exact hpaper.symm
  · simp
  · intro o ho p
    simp [mainOutputs] at ho
    rcases ho with h | h | h | h | h <;> simp [h]

/-- Witness of C2: the box `[0, 400] × [0, 100]` with the initial globals. -/
theorem full_size_single_page_witness :
    ∃ l : Layout, mainLayout initialGlobals ⟨0, 400, 0, 100⟩ = some l
      ∧ l.numPapersX = 1 ∧ l.numPapersY = 1 :=
  have h := full_size_single_page initialGlobals ⟨0, 400, 0, 100⟩ rfl rfl rfl
    (by norm_num) (by norm_num)
  let ⟨l, h1, _, _, h2, h3, _⟩ := h.2.2
  ⟨l, h1, h2, h3⟩

/-- C3: for fixed margins the per-axis page count of `main`,
`numPages(E, P) = ceil((E - wholeMargin) / (P - wholeMargin))`, is monotone:
for all track extents `E1 ≤ E2` and every paper dimension `P > wholeMargin`,
`numPages(E1, P) ≤ numPages(E2, P)`; and for every track extent
`E ≥ wholeMargin` and all paper dimensions `wholeMargin < P1 ≤ P2`,
`numPages(E, P2) ≤ numPages(E, P1)`.  The same holds of the `std::size_t`
values that `main` stores, whenever the conversions are defined; for every
extent `E ≥ wholeMargin` the ceiling is not negative and, when it is below
`2^64`, the value stored is this ceiling; and the extents of the padded box
of a non-empty track are such extents. -/
theorem numPapersCeil_monotone (g : Globals) :
    (∀ E1 E2 P : ℚ, wholeMargin g < P → E1 ≤ E2 →
        numPapersCeil g E1 P ≤ numPapersCeil g E2 P)
    ∧ (∀ E P1 P2 : ℚ, wholeMargin g ≤ E → wholeMargin g < P1 → P1 ≤ P2 →
        numPapersCeil g E P2 ≤ numPapersCeil g E P1)
    ∧ (∀ (E1 E2 P : ℚ) (n1 n2 : ℕ), wholeMargin g < P → E1 ≤ E2 →
        numPapers g E1 P = some n1 → numPapers g E2 P = some n2 → n1 ≤ n2)
    ∧ (∀ (E P1 P2 : ℚ) (n1 n2 : ℕ), wholeMargin g ≤ E → wholeMargin g < P1 → P1 ≤ P2 →
        numPapers g E P1 = some n1 → numPapers g E P2 = some n2 → n2 ≤ n1)
    ∧ (∀ E P : ℚ, wholeMargin g ≤ E → wholeMargin g < P →
        0 ≤ numPapersCeil g E P
          ∧ (numPapersCeil g E P < 2 ^ 64 →
              numPapers g E P = some (numPapersCeil g E P).toNat))
    ∧ (∀ canvas : BoundingBox, 0 ≤ g.marginOverlap_ →
        canvas.xMin_ ≤ canvas.xMax_ → canvas.yMin_ ≤ canvas.yMax_ →
        wholeMargin g ≤ (padTrack g canvas).xMax_ - (padTrack g canvas).xMin_
          ∧ wholeMargin g ≤ (padTrack g canvas).yMax_ - (padTrack g canvas).yMin_) := by
  have hE : ∀ E1 E2 P : ℚ, wholeMargin g < P → E1 ≤ E2 →
      numPapersCeil g E1 P ≤ numPapersCeil g E2 P := by
    intro E1 E2 P hP hle
    have hd : 0 < P - wholeMargin g := sub_pos.mpr hP
    unfold numPapersCeil
    apply Int.ceil_mono
    exact div_le_div_of_nonneg_right (by linarith) hd.le
  have hP : ∀ E P1 P2 : ℚ, wholeMargin g ≤ E → wholeMargin g < P1 → P1 ≤ P2 →
      numPapersCeil g E P2 ≤ numPapersCeil g E P1 := by
    intro E P1 P2 hE1 hP1 hle
    have hd1 : 0 < P1 - wholeMargin g := sub_pos.mpr hP1
    unfold numPapersCeil
    apply Int.ceil_mono
    exact div_le_div_of_nonneg_left (by linarith) hd1 (by linarith)
  have hcount : ∀ (E P : ℚ) (n : ℕ), wholeMargin g < P → numPapers g E P = some n →
      (n : ℤ) = numPapersCeil g E P := by
    intro E P n hP1 hn
    rw [numPapers_eq_toSizeT g E P hP1] at hn
    unfold toSizeT at hn
    split at hn
    · rename_i h0
      simp only [Option.some.injEq] at hn
      rw [← hn]
      exact Int.toNat_of_nonneg h0
    · cases hn
  refine ⟨hE, hP, ?_, ?_, ?_, ?_⟩
  · intro E1 E2 P n1 n2 hP1 hle h1 h2
    have := hE E1 E2 P hP1 hle
    rw [← hcount E1 P n1 hP1 h1, ← hcount E2 P n2 hP1 h2] at this
    exact_mod_cast this
  · intro E P1 P2 n1 n2 hE1 hP1 hle h1 h2
    have := hP E P1 P2 hE1 hP1 hle
    rw [← hcount E P1 n1 hP1 h1, ← hcount E P2 n2 (lt_of_lt_of_le hP1 hle) h2] at this
    exact_mod_cast this
  · intro E P hE1 hP1
    have h0 : 0 ≤ numPapersCeil g E P := ceil_nonneg_of_extent g E P hP1 (by linarith)
    refine ⟨h0, fun _ => ?_⟩
    rw [numPapers_eq_toSizeT g E P hP1]
    exact toSizeT_of_nonneg h0
  · intro canvas hov hx hy
    simp only [padTrack, wholeMargin]
    constructor <;> norm_num <;> linarith

/-- Witness of C3 with the margins 5 and 5: the extents `100 ≤ 500` on paper
of width 297, the extent 500 on paper of widths `210 ≤ 297`, and the padded
box of the track box `[0, 400] × [0, 100]`. -/
theorem numPapersCeil_monotone_witness :
    numPapersCeil initialGlobals 100 297 ≤ numPapersCeil initialGlobals 500 297
    ∧ numPapersCeil initialGlobals 500 297 ≤ numPapersCeil initialGlobals 500 210
    ∧ wholeMargin initialGlobals
        ≤ (padTrack initialGlobals ⟨0, 400, 0, 100⟩).xMax_
          - (padTrack initialGlobals ⟨0, 400, 0, 100⟩).xMin_ :=
  have hwm : wholeMargin initialGlobals = 15 := wholeMargin_default _ rfl rfl
  have h := numPapersCeil_monotone initialGlobals
  ⟨h.1 100 500 297 (by rw [hwm]; norm_num) (by norm_num),
   h.2.1 500 210 297 (by rw [hwm]; norm_num) (by rw [hwm]; norm_num) (by norm_num),
   (h.2.2.2.2.2 ⟨0, 400, 0, 100⟩ (by norm_num [initialGlobals]) (by norm_num)
      (by norm_num)).1⟩

/-- In exact arithmetic the formula of line 406 gives the fewest pages that
cover the box: for every box whose extent on an axis is at least
`wholeMargin` and every paper dimension greater than `wholeMargin`, the page
count `n` of that axis is defined, the last page reaches the far edge of the
box (`trackMin + (n - 1) * (P - wholeMargin) + P ≥ trackMin + E`, which for
`n ≥ 1` is the max of the viewport of page `n - 1`), `n ≥ 1` whenever
`E > wholeMargin`, and when `n ≥ 2` the viewport of page `n - 2` ends before
the far edge: `n - 1` pages would not reach it.  Stated for the x axis and
for the y axis.  In binary64 the last part fails, see
`binary64_page_count_not_fewest`. -/
theorem page_grid_covers_with_fewest_pages (g : Globals) (bbTrack : BoundingBox)
    (paperWidth paperHeight : ℚ) :
    (wholeMargin g ≤ bbTrack.xMax_ - bbTrack.xMin_ → wholeMargin g < paperWidth →
      ∃ n : ℕ, numPapers g (bbTrack.xMax_ - bbTrack.xMin_) paperWidth = some n
        ∧ bbTrack.xMin_ + ((n : ℚ) - 1) * (paperWidth - wholeMargin g) + paperWidth
            ≥ bbTrack.xMin_ + (bbTrack.xMax_ - bbTrack.xMin_)
        ∧ (wholeMargin g < bbTrack.xMax_ - bbTrack.xMin_ → 1 ≤ n)
        ∧ (1 ≤ n → ∀ iY : ℕ,
            bbTrack.xMax_ ≤ (bbPaper g bbTrack paperWidth paperHeight (n - 1) iY).xMax_)
        ∧ (2 ≤ n →
            bbTrack.xMin_ + ((n : ℚ) - 2) * (paperWidth - wholeMargin g) + paperWidth
              < bbTrack.xMin_ + (bbTrack.xMax_ - bbTrack.xMin_))
        ∧ (2 ≤ n → ∀ iY : ℕ,
            (bbPaper g bbTrack paperWidth paperHeight (n - 2) iY).xMax_ < bbTrack.xMax_))
    ∧ (wholeMargin g ≤ bbTrack.yMax_ - bbTrack.yMin_ → wholeMargin g < paperHeight →
      ∃ n : ℕ, numPapers g (bbTrack.yMax_ - bbTrack.yMin_) paperHeight = some n
        ∧ bbTrack.yMin_ + ((n : ℚ) - 1) * (paperHeight - wholeMargin g) + paperHeight
            ≥ bbTrack.yMin_ + (bbTrack.yMax_ - bbTrack.yMin_)
        ∧ (wholeMargin g < bbTrack.yMax_ - bbTrack.yMin_ → 1 ≤ n)
        ∧ (1 ≤ n → ∀ iX : ℕ,
            bbTrack.yMax_ ≤ (bbPaper g bbTrack paperWidth paperHeight iX (n - 1)).yMax_)
        ∧ (2 ≤ n →
            bbTrack.yMin_ + ((n : ℚ) - 2) * (paperHeight - wholeMargin g) + paperHeight
              < bbTrack.yMin_ + (bbTrack.yMax_ - bbTrack.yMin_))
        ∧ (2 ≤ n → ∀ iX : ℕ,
            (bbPaper g bbTrack paperWidth paperHeight iX (n - 2)).yMax_ < bbTrack.yMax_)) := by
  constructor
  · intro hE hP
    obtain ⟨n, hn, h1, h2⟩ := numPapers_bounds g (bbTrack.xMax_ - bbTrack.xMin_) paperWidth hP
      (by linarith)
    have hpos : wholeMargin g < bbTrack.xMax_ - bbTrack.xMin_ → 1 ≤ n := by
      intro hlt
      rcases Nat.eq_zero_or_pos n with h0 | h0
      · subst h0
        simp only [Nat.cast_zero, zero_mul] at h1
        linarith
      · exact h0
    refine ⟨n, hn, by linarith, hpos, ?_, ?_, ?_⟩
    · intro hn1 iY
      have hc : ((n - 1 : ℕ) : ℚ) = (n : ℚ) - 1 := by
        rw [Nat.cast_sub hn1]; norm_num
      simp only [bbPaper, hc]
      unfold wholeMargin at h1
      linarith
    · intro _
      linarith
    · intro hn2 iY
      have hc : ((n - 2 : ℕ) : ℚ) = (n : ℚ) - 2 := by
        rw [Nat.cast_sub hn2]; norm_num
      simp only [bbPaper, hc]
      unfold wholeMargin at h2
      linarith
  · intro hE hP
    obtain ⟨n, hn, h1, h2⟩ := numPapers_bounds g (bbTrack.yMax_ - bbTrack.yMin_) paperHeight hP
      (by linarith)
    have hpos : wholeMargin g < bbTrack.yMax_ - bbTrack.yMin_ → 1 ≤ n := by
      intro hlt
      rcases Nat.eq_zero_or_pos n with h0 | h0
      · subst h0
        simp only [Nat.cast_zero, zero_mul] at h1
        linarith
      · exact h0
    refine ⟨n, hn, by linarith, hpos, ?_, ?_, ?_⟩
    · intro hn1 iX
      have hc : ((n - 1 : ℕ) : ℚ) = (n : ℚ) - 1 := by
        rw [Nat.cast_sub hn1]; norm_num
      simp only [bbPaper, hc]
      unfold wholeMargin at h1
      linarith
    · intro _
      linarith
    · intro hn2 iX
      have hc : ((n - 2 : ℕ) : ℚ) = (n : ℚ) - 2 := by
        rw [Nat.cast_sub hn2]; norm_num
      simp only [bbPaper, hc]
      unfold wholeMargin at h2
      linarith

/-- The layout of `main` whenever both paper dimensions exceed
`wholeMargin` and both ceilings are not negative: the page counts are the
ones bounded in `numPapers_bounds`. -/
theorem mainLayout_eq_some (g : Globals) (canvas : BoundingBox)
    (hw : wholeMargin g < (setPaperSize g (padTrack g canvas)).1)
    (hh : wholeMargin g < (setPaperSize g (padTrack g canvas)).2)
    (hEx : 2 * wholeMargin g - (setPaperSize g (padTrack g canvas)).1
      < (padTrack g canvas).xMax_ - (padTrack g canvas).xMin_)
    (hEy : 2 * wholeMargin g - (setPaperSize g (padTrack g canvas)).2
      < (padTrack g canvas).yMax_ - (padTrack g canvas).yMin_) :
    ∃ nx ny : ℕ,
      mainLayout g canvas = some
        { bbTrack := padTrack g canvas
          paperWidth := (setPaperSize g (padTrack g canvas)).1
          paperHeight := (setPaperSize g (padTrack g canvas)).2
          numPapersX := nx
          numPapersY := ny
          bbPrint := bbPrint g (padTrack g canvas) (setPaperSize g (padTrack g canvas)).1
            (setPaperSize g (padTrack g canvas)).2 nx ny }
      ∧ (padTrack g canvas).xMax_ - (padTrack g canvas).xMin_ - wholeMargin g
          ≤ (nx : ℚ) * ((setPaperSize g (padTrack g canvas)).1 - wholeMargin g)
      ∧ (padTrack g canvas).yMax_ - (padTrack g canvas).yMin_ - wholeMargin g
          ≤ (ny : ℚ) * ((setPaperSize g (padTrack g canvas)).2 - wholeMargin g) := by
  obtain ⟨nx, hnx, hx1, -⟩ := numPapers_bounds g
    ((padTrack g canvas).xMax_ - (padTrack g canvas).xMin_) _ hw hEx
  obtain ⟨ny, hny, hy1, -⟩ := numPapers_bounds g
    ((padTrack g canvas).yMax_ - (padTrack g canvas).yMin_) _ hh hEy
  refine ⟨nx, ny, ?_, hx1, hy1⟩
  simp only [mainLayout, hnx, hny]

/-- The paper of every accepted size is larger than `wholeMargin = 15` in
both dimensions, for a padded box of a non-empty track. -/
theorem setPaperSize_gt_wholeMargin (g : Globals) (canvas : BoundingBox)
    (hsize : g.tileSize_ ∈ ["a3-landscape", "a4-landscape", "a3-portrait", "a4-portrait",
      "letter-landscape", "letter-portrait", "legal-landscape", "legal-portrait", "full"])
    (hnp : g.marginNotPrintable_ = 5) (hov : g.marginOverlap_ = 5)
    (hx : canvas.xMin_ ≤ canvas.xMax_) (hy : canvas.yMin_ ≤ canvas.yMax_) :
    wholeMargin g < (setPaperSize g (padTrack g canvas)).1
      ∧ wholeMargin g < (setPaperSize g (padTrack g canvas)).2 := by
  have hwm : wholeMargin g = 15 := wholeMargin_default g hnp hov
  rw [hwm]
  simp only [List.mem_cons, List.mem_singleton, List.not_mem_nil, or_false] at hsize
  rcases hsize with h | h | h | h | h | h | h | h | h
  all_goals
    simp only [setPaperSize, h, setPaperSizeBranch_a3Landscape, setPaperSizeBranch_a4Landscape,
      setPaperSizeBranch_a3Portrait, setPaperSizeBranch_a4Portrait,
      setPaperSizeBranch_letterLandscape, setPaperSizeBranch_letterPortrait,
      setPaperSizeBranch_legalLandscape, setPaperSizeBranch_legalPortrait,
      setPaperSizeBranch_full, padTrack, hnp, hov]
  all_goals norm_num
  constructor <;> linarith

/-- C10: with the margins 5 and 5, for every non-empty track box returned by
`adaptCanvas` and every accepted size, the layout of `main` is defined and
its `bbPrint`, which is the viewport handed to the writers of the clean SVG,
the annotated SVG and the track JSON, contains the unpadded track box. -/
theorem bbPrint_contains_track (g : Globals) (canvas : BoundingBox)
    (hsize : g.tileSize_ ∈ ["a3-landscape", "a4-landscape", "a3-portrait", "a4-portrait",
      "letter-landscape", "letter-portrait", "legal-landscape", "legal-portrait", "full"])
    (hnp : g.marginNotPrintable_ = 5) (hov : g.marginOverlap_ = 5)
    (hx : canvas.xMin_ ≤ canvas.xMax_) (hy : canvas.yMin_ ≤ canvas.yMax_) :
    ∃ l : Layout, mainLayout g canvas = some l
      ∧ l.bbPrint.xMin_ ≤ canvas.xMin_ ∧ l.bbPrint.xMax_ ≥ canvas.xMax_
      ∧ l.bbPrint.yMin_ ≤ canvas.yMin_ ∧ l.bbPrint.yMax_ ≥ canvas.yMax_
      ∧ Output.cleanSVG (g.prefix_ ++ "_track_clean.svg") l.bbPrint ∈ mainOutputs g l
      ∧ Output.annotatedSVG (g.prefix_ ++ "_track_annotated.svg") l.bbPrint ∈ mainOutputs g l
      ∧ Output.trackJSON (g.prefix_ ++ "_track.json") l.bbPrint ∈ mainOutputs g l := by
  have hwm : wholeMargin g = 15 := wholeMargin_default g hnp hov
  obtain ⟨hw, hh⟩ := setPaperSize_gt_wholeMargin g canvas hsize hnp hov hx hy
  have hpad : padTrack g canvas
      = ⟨canvas.xMin_ - 32.5, canvas.xMax_ + 32.5, canvas.yMin_ - 32.5, canvas.yMax_ + 32.5⟩ := by
    simp only [padTrack, hnp, hov]
    norm_num
  have hEx : wholeMargin g ≤ (padTrack g canvas).xMax_ - (padTrack g canvas).xMin_ := by
    rw [hwm, hpad]
    norm_num
    linarith
  have hEy : wholeMargin g ≤ (padTrack g canvas).yMax_ - (padTrack g canvas).yMin_ := by
    rw [hwm, hpad]
    norm_num
    linarith
  obtain ⟨nx, ny, hl, hbx, hby⟩ := mainLayout_eq_some g canvas hw hh (by linarith) (by linarith)
  refine ⟨_, hl, ?_, ?_, ?_, ?_, ?_, ?_, ?_⟩
  · simp only [bbPrint, hpad, hnp]
    norm_num
    linarith
  · simp only [bbPrint]
    rw [hwm, hpad] at hbx
    rw [hpad]
    simp only [hwm] at hbx ⊢
    norm_num at hbx ⊢
    linarith
  · simp only [bbPrint, hpad, hnp]
    norm_num
    linarith
  · simp only [bbPrint]
    rw [hwm, hpad] at hby
    rw [hpad]
    simp only [hwm] at hby ⊢
    norm_num at hby ⊢
    linarith
  · simp [mainOutputs]
  · simp [mainOutputs]
  · simp [mainOutputs]

/-- Witness of C10: the track box `[0, 400] × [0, 100]` printed on
`a4-landscape` paper. -/
theorem bbPrint_contains_track_witness :
    ∃ l : Layout,
      mainLayout { initialGlobals with tileSize_ := "a4-landscape" } ⟨0, 400, 0, 100⟩ = some l
      ∧ l.bbPrint.xMin_ ≤ 0 ∧ l.bbPrint.xMax_ ≥ 400
      ∧ l.bbPrint.yMin_ ≤ 0 ∧ l.bbPrint.yMax_ ≥ 100 :=
  have h := bbPrint_contains_track { initialGlobals with tileSize_ := "a4-landscape" }
    ⟨0, 400, 0, 100⟩ (by simp [initialGlobals]) rfl rfl (by norm_num) (by norm_num)
  let ⟨l, h1, h2, h3, h4, h5, _⟩ := h
  ⟨l, h1, h2, h3, h4, h5⟩

/-! ## Viewports of the tiled pages -/

theorem mem_createTiledTrackSVG (g : Globals) (bbTrack : BoundingBox)
    (numPapersX numPapersY : ℕ) (paperWidth paperHeight : ℚ) (p : Page) :
    p ∈ createTiledTrackSVG g bbTrack numPapersX numPapersY paperWidth paperHeight
      ↔ ∃ iX, iX < numPapersX ∧ ∃ iY, iY < numPapersY
          ∧ p = tiledPage g bbTrack paperWidth paperHeight iX iY := by
  simp only [createTiledTrackSVG, List.mem_flatten, List.mem_map, List.mem_range]
  constructor
  · rintro ⟨l, ⟨iX, hX, rfl⟩, hp⟩
    simp only [List.mem_map, List.mem_range] at hp
    obtain ⟨iY, hY, rfl⟩ := hp
    exact ⟨iX, hX, iY, hY, rfl⟩
  · rintro ⟨iX, hX, iY, hY, rfl⟩
    refine ⟨_, ⟨iX, hX, rfl⟩, ?_⟩
    simp only [List.mem_map, List.mem_range]
    exact ⟨iY, hY, rfl⟩

/-- C1, as stated, fails: with the margins 5 and 5, the padded box
`[-32.5, 432.5] × [-32.5, 132.5]` and `a4-landscape` paper (297 × 210), the
2x1 grid has the viewports `[-32.5, 264.5]` and `[249.5, 546.5]` in x, which
overlap by 15, not by `marginOverlap_ = 5`. -/
theorem two_by_one_overlap_counterexample :
    (createTiledTrackSVG initialGlobals ⟨-32.5, 432.5, -32.5, 132.5⟩ 2 1 297 210).map
        Page.bbPaper
      = [⟨-32.5, 264.5, -32.5, 177.5⟩, ⟨249.5, 546.5, -32.5, 177.5⟩]
    ∧ (bbPaper initialGlobals ⟨-32.5, 432.5, -32.5, 132.5⟩ 297 210 0 0).xMax_
        - (bbPaper initialGlobals ⟨-32.5, 432.5, -32.5, 132.5⟩ 297 210 1 0).xMin_ = 15
    ∧ initialGlobals.marginOverlap_ = 5
    ∧ (bbPaper initialGlobals ⟨-32.5, 432.5, -32.5, 132.5⟩ 297 210 0 0).xMax_
        - (bbPaper initialGlobals ⟨-32.5, 432.5, -32.5, 132.5⟩ 297 210 1 0).xMin_
        ≠ initialGlobals.marginOverlap_ := by
  refine ⟨?_, ?_, rfl, ?_⟩
  · simp only [createTiledTrackSVG, List.range_succ, List.range_zero, List.nil_append,
      List.map_cons, List.map_nil, List.flatten, List.append_nil, List.cons_append, tiledPage,
      bbPaper, initialGlobals]
    norm_num
  · simp only [bbPaper, initialGlobals]
    norm_num
  · simp only [bbPaper, initialGlobals]
    norm_num

/-- C1, amended: for a 2x1 page grid, for every track box, paper size and
margins, `createTiledTrackSVG` writes exactly the pages (0,0) and (1,0);
their viewports overlap along the x axis in a strip whose width is exactly
`2 * marginNotPrintable_ + marginOverlap_` (the whole margin), of which
`marginOverlap_` remains once `marginNotPrintable_` is trimmed from the
facing edge of either page; and there is no gap between the viewports
exactly when the whole margin is not negative. -/
theorem two_by_one_overlap (g : Globals) (bbTrack : BoundingBox) (paperWidth paperHeight : ℚ) :
    createTiledTrackSVG g bbTrack 2 1 paperWidth paperHeight
      = [tiledPage g bbTrack paperWidth paperHeight 0 0,
         tiledPage g bbTrack paperWidth paperHeight 1 0]
    ∧ (tiledPage g bbTrack paperWidth paperHeight 0 0).bbPaper
        = bbPaper g bbTrack paperWidth paperHeight 0 0
    ∧ (tiledPage g bbTrack paperWidth paperHeight 1 0).bbPaper
        = bbPaper g bbTrack paperWidth paperHeight 1 0
    ∧ (bbPaper g bbTrack paperWidth paperHeight 0 0).xMax_
        - (bbPaper g bbTrack paperWidth paperHeight 1 0).xMin_
        = 2 * g.marginNotPrintable_ + g.marginOverlap_
    ∧ ((bbPaper g bbTrack paperWidth paperHeight 0 0).xMax_ - g.marginNotPrintable_)
        - ((bbPaper g bbTrack paperWidth paperHeight 1 0).xMin_ + g.marginNotPrintable_)
        = g.marginOverlap_
    ∧ ((bbPaper g bbTrack paperWidth paperHeight 1 0).xMin_
        ≤ (bbPaper g bbTrack paperWidth paperHeight 0 0).xMax_
        ↔ 0 ≤ 2 * g.marginNotPrintable_ + g.marginOverlap_) := by
  refine ⟨?_, rfl, rfl, ?_, ?_, ?_⟩
  · simp [createTiledTrackSVG, List.range_succ]
  · simp only [bbPaper]
    push_cast
    ring
  · simp only [bbPaper]
    push_cast
    ring
  · simp only [bbPaper]
    push_cast
    constructor <;> intro h <;> linarith

/-- C4: for every page `(iX, iY)` of the grid that has a next page on an
axis, both pages are written by `createTiledTrackSVG`; the viewport of the
next page starts exactly `paperDim - wholeMargin` after the viewport of the
page; both viewports have length exactly `paperDim`; with
`marginNotPrintable_` trimmed from both ends of each viewport, the printable
intervals overlap by exactly `marginOverlap_`; and the printable interval of
the next page ends exactly `paperDim - wholeMargin` after that of the page.
Stated for the x axis and for the y axis. -/
theorem consecutive_pages_overlap (g : Globals) (bbTrack : BoundingBox)
    (numPapersX numPapersY : ℕ) (paperWidth paperHeight : ℚ) :
    (∀ iX iY : ℕ, iX + 1 < numPapersX → iY < numPapersY →
      tiledPage g bbTrack paperWidth paperHeight iX iY
          ∈ createTiledTrackSVG g bbTrack numPapersX numPapersY paperWidth paperHeight
        ∧ tiledPage g bbTrack paperWidth paperHeight (iX + 1) iY
          ∈ createTiledTrackSVG g bbTrack numPapersX numPapersY paperWidth paperHeight
        ∧ (tiledPage g bbTrack paperWidth paperHeight (iX + 1) iY).bbPaper.xMin_
            - (tiledPage g bbTrack paperWidth paperHeight iX iY).bbPaper.xMin_
            = paperWidth - wholeMargin g
        ∧ (tiledPage g bbTrack paperWidth paperHeight iX iY).bbPaper.xMax_
            - (tiledPage g bbTrack paperWidth paperHeight iX iY).bbPaper.xMin_ = paperWidth
        ∧ (tiledPage g bbTrack paperWidth paperHeight (iX + 1) iY).bbPaper.xMax_
            - (tiledPage g bbTrack paperWidth paperHeight (iX + 1) iY).bbPaper.xMin_
            = paperWidth
        ∧ ((tiledPage g bbTrack paperWidth paperHeight iX iY).bbPaper.xMax_
              - g.marginNotPrintable_)
            - ((tiledPage g bbTrack paperWidth paperHeight (iX + 1) iY).bbPaper.xMin_
              + g.marginNotPrintable_)
            = g.marginOverlap_
        ∧ ((tiledPage g bbTrack paperWidth paperHeight (iX + 1) iY).bbPaper.xMax_
              - g.marginNotPrintable_)
            - ((tiledPage g bbTrack paperWidth paperHeight iX iY).bbPaper.xMax_
              - g.marginNotPrintable_)
            = paperWidth - wholeMargin g)
    ∧ (∀ iX iY : ℕ, iX < numPapersX → iY + 1 < numPapersY →
      tiledPage g bbTrack paperWidth paperHeight iX iY
          ∈ createTiledTrackSVG g bbTrack numPapersX numPapersY paperWidth paperHeight
        ∧ tiledPage g bbTrack paperWidth paperHeight iX (iY + 1)
          ∈ createTiledTrackSVG g bbTrack numPapersX numPapersY paperWidth paperHeight
        ∧ (tiledPage g bbTrack paperWidth paperHeight iX (iY + 1)).bbPaper.yMin_
            - (tiledPage g bbTrack paperWidth paperHeight iX iY).bbPaper.yMin_
            = paperHeight - wholeMargin g
        ∧ (tiledPage g bbTrack paperWidth paperHeight iX iY).bbPaper.yMax_
            - (tiledPage g bbTrack paperWidth paperHeight iX iY).bbPaper.yMin_ = paperHeight
        ∧ (tiledPage g bbTrack paperWidth paperHeight iX (iY + 1)).bbPaper.yMax_
            - (tiledPage g bbTrack paperWidth paperHeight iX (iY + 1)).bbPaper.yMin_
            = paperHeight
        ∧ ((tiledPage g bbTrack paperWidth paperHeight iX iY).bbPaper.yMax_
              - g.marginNotPrintable_)
            - ((tiledPage g bbTrack paperWidth paperHeight iX (iY + 1)).bbPaper.yMin_
              + g.marginNotPrintable_)
            = g.marginOverlap_
        ∧ ((tiledPage g bbTrack paperWidth paperHeight iX (iY + 1)).bbPaper.yMax_
              - g.marginNotPrintable_)
            - ((tiledPage g bbTrack paperWidth paperHeight iX iY).bbPaper.yMax_
              - g.marginNotPrintable_)
            = paperHeight - wholeMargin g) := by
  constructor
  · intro iX iY hX hY
    refine ⟨?_, ?_, ?_, ?_, ?_, ?_, ?_⟩
    · exact (mem_createTiledTrackSVG _ _ _ _ _ _ _).mpr ⟨iX, by omega, iY, hY, rfl⟩
    · exact (mem_createTiledTrackSVG _ _ _ _ _ _ _).mpr ⟨iX + 1, hX, iY, hY, rfl⟩
    all_goals
      simp only [tiledPage, bbPaper, wholeMargin]
      push_cast
      ring
  · intro iX iY hX hY
    refine ⟨?_, ?_, ?_, ?_, ?_, ?_, ?_⟩
    · exact (mem_createTiledTrackSVG _ _ _ _ _ _ _).mpr ⟨iX, hX, iY, by omega, rfl⟩
    · exact (mem_createTiledTrackSVG _ _ _ _ _ _ _).mpr ⟨iX, hX, iY + 1, hY, rfl⟩
    all_goals
      simp only [tiledPage, bbPaper, wholeMargin]
      push_cast
      ring

/-- Witness of C4: pages (0,0), (1,0) and (0,1) of a 2x2 grid of
`a4-landscape` paper with the margins 5 and 5. -/
theorem consecutive_pages_overlap_witness :
    ((tiledPage initialGlobals ⟨0, 500, 0, 400⟩ 297 210 0 0).bbPaper.xMax_
          - initialGlobals.marginNotPrintable_)
        - ((tiledPage initialGlobals ⟨0, 500, 0, 400⟩ 297 210 (0 + 1) 0).bbPaper.xMin_
          + initialGlobals.marginNotPrintable_)
        = initialGlobals.marginOverlap_
    ∧ ((tiledPage initialGlobals ⟨0, 500, 0, 400⟩ 297 210 0 0).bbPaper.yMax_
          - initialGlobals.marginNotPrintable_)
        - ((tiledPage initialGlobals ⟨0, 500, 0, 400⟩ 297 210 0 (0 + 1)).bbPaper.yMin_
          + initialGlobals.marginNotPrintable_)
        = initialGlobals.marginOverlap_ :=
  have h := consecutive_pages_overlap initialGlobals ⟨0, 500, 0, 400⟩ 2 2 297 210
  ⟨(h.1 0 0 (by decide) (by decide)).2.2.2.2.2.1,
   (h.2 0 0 (by decide) (by decide)).2.2.2.2.2.1⟩

/-! ## Paper sizes and their validation -/

/-- C5: for every state of the other globals and every track box,
`setPaperSize` returns the fixed size in millimetres of each of the eight
named sizes, every portrait size is the landscape size with width and height
swapped, and for `full` it returns the extent of the track box. -/
theorem setPaperSize_table (g : Globals) (bbTrack : BoundingBox) :
    setPaperSize { g with tileSize_ := "a3-landscape" } bbTrack = (420, 297)
    ∧ setPaperSize { g with tileSize_ := "a4-landscape" } bbTrack = (297, 210)
    ∧ setPaperSize { g with tileSize_ := "a3-portrait" } bbTrack = (297, 420)
    ∧ setPaperSize { g with tileSize_ := "a4-portrait" } bbTrack = (210, 297)
    ∧ setPaperSize { g with tileSize_ := "letter-landscape" } bbTrack = (279.4, 215.9)
    ∧ setPaperSize { g with tileSize_ := "letter-portrait" } bbTrack = (215.9, 279.4)
    ∧ setPaperSize { g with tileSize_ := "legal-landscape" } bbTrack = (355.6, 215.9)
    ∧ setPaperSize { g with tileSize_ := "legal-portrait" } bbTrack = (215.9, 355.6)
    ∧ setPaperSize { g with tileSize_ := "a3-portrait" } bbTrack
        = (setPaperSize { g with tileSize_ := "a3-landscape" } bbTrack).swap
    ∧ setPaperSize { g with tileSize_ := "a4-portrait" } bbTrack
        = (setPaperSize { g with tileSize_ := "a4-landscape" } bbTrack).swap
    ∧ setPaperSize { g with tileSize_ := "letter-portrait" } bbTrack
        = (setPaperSize { g with tileSize_ := "letter-landscape" } bbTrack).swap
    ∧ setPaperSize { g with tileSize_ := "legal-portrait" } bbTrack
        = (setPaperSize { g with tileSize_ := "legal-landscape" } bbTrack).swap
    ∧ setPaperSize { g with tileSize_ := "full" } bbTrack
        = (bbTrack.xMax_ - bbTrack.xMin_, bbTrack.yMax_ - bbTrack.yMin_) := by
  simp only [setPaperSize, setPaperSizeBranch_a3Landscape, setPaperSizeBranch_a4Landscape,
    setPaperSizeBranch_a3Portrait, setPaperSizeBranch_a4Portrait,
    setPaperSizeBranch_letterLandscape, setPaperSizeBranch_letterPortrait,
    setPaperSizeBranch_legalLandscape, setPaperSizeBranch_legalPortrait,
    setPaperSizeBranch_full, Prod.swap_prod_mk]
  norm_num

/-- C6, the code at the failing input: with `--track starter` together with
`--import-drive oval32wide_8pc_map.txt` (and likewise with
`--import-overdrive modular_capsule.txt`), and `.` a directory,
`handleCommandlineArguments` returns the variables map instead of ending the
process: it sets `trackName_`, leaves `mapFileDrive_` and
`mapFileOverdrive_` empty, and `main` goes on to build the starter track. -/
theorem track_with_import_returns :
    handleCommandlineArguments sampleEnv
        (.ok { optTrack := some "starter", optImportDrive := some "oval32wide_8pc_map.txt" })
        initialGlobals
      = ({ initialGlobals with trackName_ := "starter", pathToAppData_ := "." },
         some { optTrack := some "starter", optImportDrive := some "oval32wide_8pc_map.txt" })
    ∧ handleCommandlineArguments sampleEnv
        (.ok { optTrack := some "starter", optImportOverdrive := some "modular_capsule.txt" })
        initialGlobals
      = ({ initialGlobals with trackName_ := "starter", pathToAppData_ := "." },
         some { optTrack := some "starter", optImportOverdrive := some "modular_capsule.txt" })
    ∧ mainTrack sampleEnv { initialGlobals with trackName_ := "starter", pathToAppData_ := "." }
      = (true, some sampleEnv.starterCanvas) := by
  refine ⟨?_, ?_, ?_⟩
  · rfl
  · rfl
  · rfl

/-! ## The viewport of the combined drawing -/

theorem numPapers_eq_of_bounds (g : Globals) (E P : ℚ) (n : ℕ) (hP : wholeMargin g < P)
    (h1 : ((n : ℚ) - 1) * (P - wholeMargin g) < E - wholeMargin g)
    (h2 : E - wholeMargin g ≤ (n : ℚ) * (P - wholeMargin g)) :
    numPapers g E P = some n := by
  have hd : 0 < P - wholeMargin g := sub_pos.mpr hP
  have hc : ⌈(E - wholeMargin g) / (P - wholeMargin g)⌉ = (n : ℤ) := by
    rw [Int.ceil_eq_iff]
    constructor
    · rw [lt_div_iff₀ hd]
      push_cast
      exact h1
    · rw [div_le_iff₀ hd]
      push_cast
      exact h2
  rw [numPapers_eq_toSizeT g E P hP, hc, toSizeT_of_nonneg (Int.natCast_nonneg n)]
  simp

/-- On each axis `bbPrint` starts at the inner edge of the min-side guide
line of the first page, and ends `marginNotPrintable_` before the inner edge
of the max-side guide line of the last page: its extent is
`numPapers * (paperDim - wholeMargin) - marginNotPrintable_`. -/
theorem bbPrint_and_guide_lines (g : Globals) (bbTrack : BoundingBox)
    (paperWidth paperHeight : ℚ) (numPapersX numPapersY : ℕ)
    (hX : 1 ≤ numPapersX) (hY : 1 ≤ numPapersY) :
    (bbPrint g bbTrack paperWidth paperHeight numPapersX numPapersY).xMin_
        = (guideLineXMin g (bbPaper g bbTrack paperWidth paperHeight 0 0)).xHigh
    ∧ (bbPrint g bbTrack paperWidth paperHeight numPapersX numPapersY).yMin_
        = (guideLineYMin g (bbPaper g bbTrack paperWidth paperHeight 0 0)).yHigh
    ∧ (bbPrint g bbTrack paperWidth paperHeight numPapersX numPapersY).xMax_
        = (guideLineXMax g (bbPaper g bbTrack paperWidth paperHeight
            (numPapersX - 1) (numPapersY - 1))).xLow - g.marginNotPrintable_
    ∧ (bbPrint g bbTrack paperWidth paperHeight numPapersX numPapersY).yMax_
        = (guideLineYMax g (bbPaper g bbTrack paperWidth paperHeight
            (numPapersX - 1) (numPapersY - 1))).yLow - g.marginNotPrintable_
    ∧ (bbPrint g bbTrack paperWidth paperHeight numPapersX numPapersY).xMax_
        - (bbPrint g bbTrack paperWidth paperHeight numPapersX numPapersY).xMin_
        = (numPapersX : ℚ) * (paperWidth - wholeMargin g) - g.marginNotPrintable_
    ∧ (bbPrint g bbTrack paperWidth paperHeight numPapersX numPapersY).yMax_
        - (bbPrint g bbTrack paperWidth paperHeight numPapersX numPapersY).yMin_
        = (numPapersY : ℚ) * (paperHeight - wholeMargin g) - g.marginNotPrintable_ := by
  have cX : ((numPapersX - 1 : ℕ) : ℚ) = (numPapersX : ℚ) - 1 := by
    rw [Nat.cast_sub hX]; norm_num
  have cY : ((numPapersY - 1 : ℕ) : ℚ) = (numPapersY : ℚ) - 1 := by
    rw [Nat.cast_sub hY]; norm_num
  refine ⟨?_, ?_, ?_, ?_, ?_, ?_⟩
  all_goals
    simp only [bbPrint, bbPaper, guideLineXMin, guideLineYMin, guideLineXMax, guideLineYMax,
      Line.xHigh, Line.yHigh, Line.xLow, Line.yLow, wholeMargin, widthHelperThin, cX, cY]
    push_cast
    ring

/-- C8, the code at the failing input: the track box `[0, 400] × [0, 100]`
on `a4-landscape` paper with the margins 5 and 5.  The grid is 2x1; `bbPrint`
starts at the min-side guide line of the first page (-27.5), but it ends at
531.5 in x and 162.5 in y, which is 5 before the max-side guide lines of the
last page (536.5 and 167.5); its extent in x is 559, not
`2 * (297 - 15) = 564`, and in y 190, not `1 * (210 - 15) = 195`. -/
theorem bbPrint_ends_before_guide_line :
    ∃ l : Layout,
      mainLayout { initialGlobals with tileSize_ := "a4-landscape" } ⟨0, 400, 0, 100⟩ = some l
      ∧ l.bbTrack = ⟨-32.5, 432.5, -32.5, 132.5⟩
      ∧ l.paperWidth = 297 ∧ l.paperHeight = 210
      ∧ l.numPapersX = 2 ∧ l.numPapersY = 1
      ∧ l.bbPrint = ⟨-27.5, 531.5, -27.5, 162.5⟩
      ∧ (guideLineXMin initialGlobals (bbPaper initialGlobals l.bbTrack 297 210 0 0)).xHigh
          = -27.5
      ∧ (guideLineXMax initialGlobals (bbPaper initialGlobals l.bbTrack 297 210 1 0)).xLow
          = 536.5
      ∧ (guideLineYMax initialGlobals (bbPaper initialGlobals l.bbTrack 297 210 1 0)).yLow
          = 167.5
      ∧ l.bbPrint.xMax_ - l.bbPrint.xMin_ = 559
      ∧ (l.numPapersX : ℚ) * (l.paperWidth - wholeMargin initialGlobals) = 564
      ∧ l.bbPrint.yMax_ - l.bbPrint.yMin_ = 190
      ∧ (l.numPapersY : ℚ) * (l.paperHeight - wholeMargin initialGlobals) = 195 := by
  have hwm : wholeMargin { initialGlobals with tileSize_ := "a4-landscape" } = 15 :=
    wholeMargin_default _ rfl rfl
  have hwm0 : wholeMargin initialGlobals = 15 := wholeMargin_default _ rfl rfl
  have hpad : padTrack { initialGlobals with tileSize_ := "a4-landscape" } ⟨0, 400, 0, 100⟩
      = ⟨-32.5, 432.5, -32.5, 132.5⟩ := by
    simp only [padTrack, initialGlobals]
    norm_num
  have hpaper : setPaperSize { initialGlobals with tileSize_ := "a4-landscape" }
      ⟨-32.5, 432.5, -32.5, 132.5⟩ = (297, 210) := by
    simp only [setPaperSize, setPaperSizeBranch_a4Landscape]
    norm_num
  have hnx : numPapers { initialGlobals with tileSize_ := "a4-landscape" }
      ((432.5 : ℚ) - (-32.5)) 297 = some 2 := by
    apply numPapers_eq_of_bounds <;> rw [hwm] <;> norm_num
  have hny : numPapers { initialGlobals with tileSize_ := "a4-landscape" }
      ((132.5 : ℚ) - (-32.5)) 210 = some 1 := by
    apply numPapers_eq_of_bounds <;> rw [hwm] <;> norm_num
  refine ⟨⟨⟨-32.5, 432.5, -32.5, 132.5⟩, 297, 210, 2, 1, ⟨-27.5, 531.5, -27.5, 162.5⟩⟩,
    ?_, rfl, rfl, rfl, rfl, rfl, rfl, ?_, ?_, ?_, ?_, ?_, ?_, ?_⟩
  · simp only [mainLayout, hpad, hpaper, hnx, hny, bbPrint, hwm]
    norm_num [initialGlobals]
  all_goals
    simp only [guideLineXMin, guideLineXMax, guideLineYMax, bbPaper, Line.xHigh, Line.xLow,
      Line.yLow, widthHelperThin, initialGlobals, wholeMargin]
    norm_num

/-- The exact-arithmetic statement at the padded box
`[-32.5, 432.5] × [-32.5, 132.5]` on `a4-landscape` paper with the margins 5
and 5. -/
theorem page_grid_covers_with_fewest_pages_witness :
    ∃ n : ℕ,
      numPapers initialGlobals
          ((⟨-32.5, 432.5, -32.5, 132.5⟩ : BoundingBox).xMax_
            - (⟨-32.5, 432.5, -32.5, 132.5⟩ : BoundingBox).xMin_) 297 = some n
        ∧ 1 ≤ n :=
  have hwm : wholeMargin initialGlobals = 15 := wholeMargin_default _ rfl rfl
  let ⟨n, h1, _, h3, _⟩ :=
    (page_grid_covers_with_fewest_pages initialGlobals ⟨-32.5, 432.5, -32.5, 132.5⟩ 297 210).1
      (by rw [hwm]; norm_num) (by rw [hwm]; norm_num)
  ⟨n, h1, h3 (by rw [hwm]; norm_num)⟩

/-- The function `handleCommandlineArguments` returns exactly when the
command line parses, `--help` is absent, one of the three sources occurs,
`--import-drive` and `--import-overdrive` do not both occur, and the app
data path is a directory when one of the two occurs. -/
theorem handleCommandlineArguments_returns_iff (env : Env) (vm : VariablesMap) (g : Globals) :
    (handleCommandlineArguments env (.ok vm) g).2 = some vm
      ↔ (vm.optHelp = false
          ∧ (vm.optTrack.isSome ∨ vm.optImportDrive.isSome ∨ vm.optImportOverdrive.isSome)
          ∧ ¬ (vm.optImportDrive.isSome ∧ vm.optImportOverdrive.isSome)
          ∧ ((vm.optImportDrive.isSome ∨ vm.optImportOverdrive.isSome) →
              env.isDirectory (vm.optAppdata.getD ".") = true)) := by
  unfold handleCommandlineArguments
  cases hh : vm.optHelp <;> cases ht : vm.optTrack <;> cases hd : vm.optImportDrive <;>
    cases ho : vm.optImportOverdrive <;> cases ha : vm.optAppdata <;>
    simp [selectSource, setAppData, hh, ht, hd, ho, ha] <;>
    split <;> simp_all

/-! ## Binary64 evaluation of the page count -/

theorem log_two_eq (x : ℚ) (e : ℤ) (hlo : (2 : ℚ) ^ e ≤ |x|) (hhi : |x| < (2 : ℚ) ^ (e + 1)) :
    Int.log 2 |x| = e := by
  have hpos : 0 < |x| := lt_of_lt_of_le (by positivity) hlo
  have h1 : e ≤ Int.log 2 |x| := by
    rw [← Int.zpow_le_iff_le_log (by norm_num) hpos]
    exact_mod_cast hlo
  have h2 : Int.log 2 |x| < e + 1 := by
    rw [← Int.lt_zpow_iff_log_lt (by norm_num) hpos]
    exact_mod_cast hhi
  omega

/-- Rounding of a value in the binade `[2^e, 2^(e+1))` that is nearer to
`k * 2^(e-52)` than to any other multiple of `2^(e-52)`. -/
theorem roundBinary64_eq (x : ℚ) (e k : ℤ) (hlo : (2 : ℚ) ^ e ≤ |x|)
    (hhi : |x| < (2 : ℚ) ^ (e + 1)) (h1 : (k : ℚ) - 1 / 2 < x / 2 ^ (e - 52))
    (h2 : x / 2 ^ (e - 52) < (k : ℚ) + 1 / 2) :
    roundBinary64 x = (k : ℚ) * 2 ^ (e - 52) := by
  have hx : x ≠ 0 := by
    intro h
    rw [h, abs_zero] at hlo
    exact absurd hlo (not_le.mpr (by positivity))
  unfold roundBinary64 roundHalfEven
  rw [if_neg hx, log_two_eq x e hlo hhi]
  rcases le_or_lt (k : ℚ) (x / 2 ^ (e - 52)) with hk | hk
  · have hf : ⌊x / (2 : ℚ) ^ (e - 52)⌋ = k := by
      rw [Int.floor_eq_iff]
      constructor
      · exact hk
      · linarith
    rw [hf, if_pos (by linarith)]
  · have hf : ⌊x / (2 : ℚ) ^ (e - 52)⌋ = k - 1 := by
      rw [Int.floor_eq_iff]
      push_cast
      constructor
      · linarith
      · linarith
    rw [hf]
    push_cast
    rw [if_neg (by linarith), if_pos (by linarith)]
    ring

theorem roundBinary64_zero : roundBinary64 0 = 0 := by
  simp [roundBinary64]

theorem roundHalfEven_intCast (k : ℤ) : roundHalfEven (k : ℚ) = k := by
  simp [roundHalfEven]

theorem floor_le_roundHalfEven (m : ℚ) : ⌊m⌋ ≤ roundHalfEven m := by
  unfold roundHalfEven
  split_ifs <;> omega

theorem roundHalfEven_le_floor_add_one (m : ℚ) : roundHalfEven m ≤ ⌊m⌋ + 1 := by
  unfold roundHalfEven
  split_ifs <;> omega

theorem roundHalfEven_mono {m1 m2 : ℚ} (h : m1 ≤ m2) : roundHalfEven m1 ≤ roundHalfEven m2 := by
  have hf : ⌊m1⌋ ≤ ⌊m2⌋ := Int.floor_mono h
  rcases hf.lt_or_eq with hlt | heq
  · calc roundHalfEven m1 ≤ ⌊m1⌋ + 1 := roundHalfEven_le_floor_add_one m1
      _ ≤ ⌊m2⌋ := hlt
      _ ≤ roundHalfEven m2 := floor_le_roundHalfEven m2
  · unfold roundHalfEven
    rw [heq]
    split_ifs <;> first | omega | (exfalso; linarith)

theorem roundHalfEven_neg (m : ℚ) : roundHalfEven (-m) = -roundHalfEven m := by
  by_cases hm : (⌊m⌋ : ℚ) = m
  · rw [← hm, ← Int.cast_neg, roundHalfEven_intCast, roundHalfEven_intCast]
  · have h1 : (⌊m⌋ : ℚ) < m := lt_of_le_of_ne (Int.floor_le m) hm
    have h2 : m < ⌊m⌋ + 1 := Int.lt_floor_add_one m
    have hf : ⌊-m⌋ = -⌊m⌋ - 1 := by
      rw [Int.floor_eq_iff]
      push_cast
      constructor <;> linarith
    unfold roundHalfEven
    rw [hf]
    push_cast
    split_ifs <;> first | omega | (exfalso; linarith)

theorem roundBinary64_neg (x : ℚ) : roundBinary64 (-x) = -roundBinary64 x := by
  unfold roundBinary64
  by_cases hx : x = 0
  · simp [hx]
  · rw [if_neg hx, if_neg (neg_ne_zero.mpr hx), abs_neg, neg_div, roundHalfEven_neg]
    push_cast
    ring

theorem roundBinary64_pos_bounds {x : ℚ} (hx : 0 < x) :
    (2 : ℚ) ^ Int.log 2 x ≤ roundBinary64 x ∧ roundBinary64 x ≤ (2 : ℚ) ^ (Int.log 2 x + 1) := by
  have hlo : (2 : ℚ) ^ Int.log 2 x ≤ x := by
    have := Int.zpow_log_le_self (b := 2) (by norm_num) hx
    exact_mod_cast this
  have hhi : x < (2 : ℚ) ^ (Int.log 2 x + 1) := by
    have := Int.lt_zpow_succ_log_self (b := 2) (by norm_num) x
    exact_mod_cast this
  have hu : (0 : ℚ) < 2 ^ (Int.log 2 x - 52) := by positivity
  have e1 : (2 : ℚ) ^ Int.log 2 x = ((2 ^ 52 : ℤ) : ℚ) * 2 ^ (Int.log 2 x - 52) := by
    rw [show Int.log 2 x = 52 + (Int.log 2 x - 52) by ring, zpow_add₀ (by norm_num)]
    norm_num
  have e2 : (2 : ℚ) ^ (Int.log 2 x + 1) = ((2 ^ 53 : ℤ) : ℚ) * 2 ^ (Int.log 2 x - 52) := by
    rw [show Int.log 2 x + 1 = 53 + (Int.log 2 x - 52) by ring, zpow_add₀ (by norm_num)]
    norm_num
  unfold roundBinary64
  rw [if_neg hx.ne', abs_of_pos hx]
  constructor
  · rw [e1]
    apply mul_le_mul_of_nonneg_right _ hu.le
    have hm : ((2 ^ 52 : ℤ) : ℚ) ≤ x / 2 ^ (Int.log 2 x - 52) := by
      rw [le_div_iff₀ hu, ← e1]
      exact hlo
    have := roundHalfEven_mono hm
    rw [roundHalfEven_intCast] at this
    exact_mod_cast this
  · rw [e2]
    apply mul_le_mul_of_nonneg_right _ hu.le
    have hm : x / 2 ^ (Int.log 2 x - 52) ≤ ((2 ^ 53 : ℤ) : ℚ) := by
      rw [div_le_iff₀ hu, ← e2]
      exact hhi.le
    have := roundHalfEven_mono hm
    rw [roundHalfEven_intCast] at this
    exact_mod_cast this

theorem roundBinary64_pos {x : ℚ} (hx : 0 < x) : 0 < roundBinary64 x :=
  lt_of_lt_of_le (by positivity) (roundBinary64_pos_bounds hx).1

theorem roundBinary64_mono_of_pos {x y : ℚ} (hx : 0 < x) (h : x ≤ y) :
    roundBinary64 x ≤ roundBinary64 y := by
  have hy : 0 < y := lt_of_lt_of_le hx h
  have hlog : Int.log 2 x ≤ Int.log 2 y := Int.log_mono_right hx h
  rcases hlog.lt_or_eq with hlt | heq
  · calc roundBinary64 x ≤ (2 : ℚ) ^ (Int.log 2 x + 1) := (roundBinary64_pos_bounds hx).2
      _ ≤ (2 : ℚ) ^ Int.log 2 y := zpow_le_zpow_right₀ (by norm_num) hlt
      _ ≤ roundBinary64 y := (roundBinary64_pos_bounds hy).1
  · unfold roundBinary64
    rw [if_neg hx.ne', if_neg hy.ne', abs_of_pos hx, abs_of_pos hy, heq]
    have hu : (0 : ℚ) < 2 ^ (Int.log 2 y - 52) := by positivity
    apply mul_le_mul_of_nonneg_right _ hu.le
    have := roundHalfEven_mono (div_le_div_of_nonneg_right h hu.le)
    exact_mod_cast this

/-- Rounding to binary64 keeps the order. -/
theorem roundBinary64_mono {x y : ℚ} (h : x ≤ y) : roundBinary64 x ≤ roundBinary64 y := by
  rcases lt_trichotomy 0 x with hx | hx | hx
  · exact roundBinary64_mono_of_pos hx h
  · subst hx
    rcases h.lt_or_eq with hy | hy
    · have := roundBinary64_pos hy
      simp only [roundBinary64, if_true] at this ⊢
      simpa using this.le
    · rw [← hy]
  · rcases lt_trichotomy 0 y with hy | hy | hy
    · have h1 := roundBinary64_pos (neg_pos.mpr hx)
      rw [roundBinary64_neg] at h1
      have h2 := roundBinary64_pos hy
      linarith
    · subst hy
      have h1 := roundBinary64_pos (neg_pos.mpr hx)
      rw [roundBinary64_neg] at h1
      have h0 : roundBinary64 0 = 0 := by simp [roundBinary64]
      rw [h0]
      linarith
    · have := roundBinary64_mono_of_pos (neg_pos.mpr hy) (neg_le_neg h)
      rw [roundBinary64_neg, roundBinary64_neg] at this
      linarith

/-- The ceiling of line 406 evaluated in binary64 is monotone like the exact
one: not decreasing in the track extent for a paper dimension greater than the
whole margin, and not increasing in the paper dimension for an extent that
is at least the whole margin. -/
theorem numPapersCeil64_monotone (g : Globals) :
    (∀ E1 E2 P : ℚ, wholeMargin64 g < P → E1 ≤ E2 →
        numPapersCeil64 g E1 P ≤ numPapersCeil64 g E2 P)
    ∧ (∀ E P1 P2 : ℚ, wholeMargin64 g ≤ E → wholeMargin64 g < P1 → P1 ≤ P2 →
        numPapersCeil64 g E P2 ≤ numPapersCeil64 g E P1) := by
  constructor
  · intro E1 E2 P hP hle
    have hd : 0 < roundBinary64 (P - wholeMargin64 g) := roundBinary64_pos (sub_pos.mpr hP)
    have hn : roundBinary64 (E1 - wholeMargin64 g) ≤ roundBinary64 (E2 - wholeMargin64 g) :=
      roundBinary64_mono (by linarith)
    unfold numPapersCeil64
    exact Int.ceil_mono (roundBinary64_mono (div_le_div_of_nonneg_right hn hd.le))
  · intro E P1 P2 hE hP1 hle
    have hd1 : 0 < roundBinary64 (P1 - wholeMargin64 g) := roundBinary64_pos (sub_pos.mpr hP1)
    have hd : roundBinary64 (P1 - wholeMargin64 g) ≤ roundBinary64 (P2 - wholeMargin64 g) :=
      roundBinary64_mono (by linarith)
    have hn : 0 ≤ roundBinary64 (E - wholeMargin64 g) := by
      have := roundBinary64_mono (sub_nonneg.mpr hE)
      rwa [roundBinary64_zero] at this
    unfold numPapersCeil64
    exact Int.ceil_mono (roundBinary64_mono (div_le_div_of_nonneg_left hn hd1 hd))

theorem roundBinary64_5 : roundBinary64 5 = 5 := by
  rw [roundBinary64_eq 5 2 5629499534213120 (by norm_num [abs_of_pos])
    (by norm_num [abs_of_pos]) (by norm_num) (by norm_num)]
  norm_num

end Tragediy
